import Mathlib

/-!
Verification of the payment-schedule, wire-model and content-locator core of
the go-fil-markets excerpt (src/retrievalmarket/types.go, src/dagstore/mount_api.go,
and the shared/tokenamount tests in src/unnamed/part_000).

Conventions of the embedding:
* Go `uint64` values are `Nat` with `% U64` applied exactly where the source's
  64-bit arithmetic can wrap.
* a go-state-types `big.Int` (= `abi.TokenAmount`) is an `Option Int`: `none`
  models a nil `*big.Int` inside the struct.  math/big methods dereference the
  pointer, so an operation touching a single nil pointer panics; a panic (or a
  loop that never exits) is modelled by an `Option` result being `none`.
* the two interval loops of types.go are partial (they can genuinely loop
  forever), so they take an explicit `fuel` bound; `none` means "did not exit
  within `fuel` iterations".
-/

namespace FilMarkets

/-- Modulus of Go's uint64 arithmetic. -/
def U64 : Nat := 2 ^ 64

/-- Go conversion `int64(x)` applied to a uint64 value: reinterpret the low 64
bits as a signed two's-complement number. -/
def toInt64 (n : Nat) : Int :=
  if n % U64 < 2 ^ 63 then ((n % U64 : Nat) : Int) else ((n % U64 : Nat) : Int) - (U64 : Int)

/-- go-state-types `big.Int.LessThan` (via math/big `Cmp`).  Two nil pointers
are pointer-equal, so `Cmp` short-circuits to 0 without dereferencing; a single
nil pointer is dereferenced and panics (`none`). -/
def bigLessThan : Option Int → Option Int → Option Bool
  | none, none => some false
  | some a, some b => some (decide (a < b))
  | _, _ => none

/-- go-state-types `big.Int.IsZero` = `b.Int.Sign() == 0`; `Sign` dereferences
the pointer, so a nil big.Int panics (`none`). -/
def bigIsZero : Option Int → Option Bool
  | none => none
  | some a => some (a == 0)

/-- go-state-types `big.Sub`; dereferences both pointers, so either side nil
panics (`none`). -/
def bigSub : Option Int → Option Int → Option Int
  | some a, some b => some (a - b)
  | _, _ => none

/-- Modelled from the spec: an IPLD `datamodel.Node` (the go-ipld-prime node
interface is external to the excerpt); only the kinds the wire model uses. -/
inductive Node where
  | null
  | int (i : Int)
  | bytes (b : List Nat)
  | string (s : String)
  | link (c : Nat)
  | map (entries : List (String × Node))

/-- Test whether a node is the IPLD null node. -/
def Node.isNullNode : Node → Bool
  | .null => true
  | _ => false

/-- Modelled from the spec: `shared.CborGenCompatibleNode.IsNull` (shared/ is
not under src/): the nullable-selector wrapper is null when the wrapped node is
absent (nil) or is the IPLD null node (spec section 4.3: present means "not the
null marker"). -/
def nodeIsNull : Option Node → Bool
  | none => true
  | some n => n.isNullNode

/-- `Params` from src/retrievalmarket/types.go:231-238.  `Selector` is the
`shared.CborGenCompatibleNode` (an optional node), `PieceCID` an optional CID
(CIDs abstracted to `Nat`), the two prices nullable big.Ints, the two interval
fields uint64. -/
structure Params where
  Selector : Option Node := none
  PieceCID : Option Nat := none
  PricePerByte : Option Int := none
  PaymentInterval : Nat := 0
  PaymentIntervalIncrease : Nat := 0
  UnsealPrice : Option Int := none

/-- `Params.SelectorSpecified` from types.go:254-256: `!p.Selector.IsNull()`. -/
def Params.SelectorSpecified (p : Params) : Bool := !(nodeIsNull p.Selector)

/-- The single loop body shared verbatim by `Params.IntervalLowerBound`
(types.go:258-268) and `Params.nextInterval` (types.go:325-333): both run

  for target <= currentInterval { lowerBound = target; target += intervalSize;
                                  intervalSize += increase }

on uint64s (`nextInterval` keeps only the `target` register, there called
`nextInterval`, whose recurrence is identical).  On exit the pair
`(lowerBound, target)` holds `IntervalLowerBound`'s result in the first
component and `nextInterval`'s result in the second.  All additions wrap at
2^64 exactly as in Go.  `fuel` bounds the iteration count; `none` means the
loop has not exited within `fuel` iterations (the loop can really diverge). -/
def intervalLoop (inc cur : Nat) : Nat → Nat → Nat → Nat → Option (Nat × Nat)
  | 0, _, _, _ => none
  | fuel + 1, lb, target, size =>
    if target ≤ cur then
      intervalLoop inc cur fuel target ((target + size) % U64) ((size + inc) % U64)
    else
      some (lb, target)

/-- The same loop with unbounded natural arithmetic (the idealized recurrence
the spec describes); used to state the no-overflow regime. -/
def intervalLoopSpec (inc cur : Nat) : Nat → Nat → Nat → Nat → Option (Nat × Nat)
  | 0, _, _, _ => none
  | fuel + 1, lb, target, size =>
    if target ≤ cur then
      intervalLoopSpec inc cur fuel target (target + size) (size + inc)
    else
      some (lb, target)

/-- The uint64 loop instrumented with overflow guards: it returns `some`
exactly when the run both exits within `fuel` iterations and never wraps, and
then `intervalLoop` and `intervalLoopSpec` agree with it. -/
def intervalLoopChecked (inc cur : Nat) : Nat → Nat → Nat → Nat → Option (Nat × Nat)
  | 0, _, _, _ => none
  | fuel + 1, lb, target, size =>
    if target ≤ cur then
      if target + size < U64 ∧ size + inc < U64 then
        intervalLoopChecked inc cur fuel target (target + size) (size + inc)
      else none
    else
      some (lb, target)

/-- `Params.IntervalLowerBound` from types.go:258-268 (fuel-bounded). -/
def Params.IntervalLowerBound (p : Params) (currentInterval fuel : Nat) : Option Nat :=
  (intervalLoop p.PaymentIntervalIncrease currentInterval fuel 0 0 p.PaymentInterval).map Prod.fst

/-- `Params.nextInterval` from types.go:325-333 (fuel-bounded). -/
def Params.nextInterval (p : Params) (currentInterval fuel : Nat) : Option Nat :=
  (intervalLoop p.PaymentIntervalIncrease currentInterval fuel 0 0 p.PaymentInterval).map Prod.snd

/-- `Params.OutstandingBalance` from types.go:272-305, translated branch by
branch in source order.  `sent` is the uint64 byte count; the result is `none`
when the Go call would panic on a nil big.Int or when the interval loop does
not exit within `fuel` iterations, and `some owed` when the call returns.
The source computes `big.Mul(big.NewInt(int64(minimumBytesToPay)), p.PricePerByte)`:
the uint64→int64 conversion is `toInt64`, the big.Int multiply is exact. -/
def Params.OutstandingBalance (p : Params) (fundsReceived : Option Int) (sent : Nat)
    (inFinalization : Bool) (fuel : Nat) : Option Int :=
  match bigLessThan fundsReceived p.UnsealPrice with
  | none => none
  | some true => bigSub p.UnsealPrice fundsReceived
  | some false =>
    match bigIsZero p.PricePerByte with
    | none => none
    | some true => some 0
    | some false =>
      match bigSub fundsReceived p.UnsealPrice with
      | none => none
      | some transferPayment =>
        match p.IntervalLowerBound sent fuel with
        | none => none
        | some intervalLowerBound =>
          let minimumBytesToPay := if inFinalization then sent else intervalLowerBound
          match p.PricePerByte with
          | none => none
          | some pricePerByte =>
            let totalPaymentRequired := toInt64 minimumBytesToPay * pricePerByte
            let owed := totalPaymentRequired - transferPayment
            if owed < 0 then some 0 else some owed

/-- Error message of `NewParamsV1` (types.go:348). -/
def selectorRequiredMsg : String := "selector required for NewParamsV1"

/-- The zero value `Params{}` returned by `NewParamsV1` on a nil selector:
nil node, nil piece CID, nil big.Ints, zero intervals. -/
def zeroParams : Params := {}

/-- `NewParamsV1` from types.go:346-359.  Go returns `(Params, error)`; the
second component is the error message when present. -/
def NewParamsV1 (pricePerByte : Option Int) (paymentInterval paymentIntervalIncrease : Nat)
    (sel : Option Node) (pieceCid : Option Nat) (unsealPrice : Option Int) :
    Params × Option String :=
  match sel with
  | none => (zeroParams, some selectorRequiredMsg)
  | some s =>
    ({ Selector := some s
       PieceCID := pieceCid
       PricePerByte := pricePerByte
       PaymentInterval := paymentInterval
       PaymentIntervalIncrease := paymentIntervalIncrease
       UnsealPrice := unsealPrice }, none)

/-- Modelled from the spec: `DealStatus` is a uint64 status code
(retrievalmarket/dealstatus.go is not under src/); the constants below carry
their iota positions from that file.  Only distinctness matters to the claims. -/
def DealStatus : Type := Nat

/-- Status code DealStatusNew. -/
def DealStatusNew : Nat := 0

/-- Status code DealStatusFailing. -/
def DealStatusFailing : Nat := 8

/-- Status code DealStatusRejected. -/
def DealStatusRejected : Nat := 9

/-- Status code DealStatusFundsNeeded (a mid-transfer status). -/
def DealStatusFundsNeeded : Nat := 10

/-- Status code DealStatusOngoing (a mid-transfer status). -/
def DealStatusOngoing : Nat := 13

/-- Status code DealStatusFundsNeededLastPayment (a mid-transfer status). -/
def DealStatusFundsNeededLastPayment : Nat := 14

/-- Status code DealStatusCompleted. -/
def DealStatusCompleted : Nat := 15

/-- Status code DealStatusDealNotFound. -/
def DealStatusDealNotFound : Nat := 16

/-- Status code DealStatusFinalizing (a mid-transfer status). -/
def DealStatusFinalizing : Nat := 19

/-- `IsTerminalError` from types.go:212-216. -/
def IsTerminalError (status : Nat) : Bool :=
  status == DealStatusDealNotFound || status == DealStatusFailing || status == DealStatusRejected

/-- `IsTerminalSuccess` from types.go:220-222. -/
def IsTerminalSuccess (status : Nat) : Bool :=
  status == DealStatusCompleted

/-- `IsTerminalStatus` from types.go:226-228. -/
def IsTerminalStatus (status : Nat) : Bool :=
  IsTerminalError status || IsTerminalSuccess status

/-- The `retrievalmarket.RetrievalProviderNode` operations used by the content
locator (the interface is external to the excerpt): for each deal (location,
abstracted to a `Nat` key for its sector/offset/length descriptor),
`IsUnsealed` answers the availability check (`none` models the check returning
an error) and `UnsealSector` attempts to materialize-and-open the piece
(`Except`: error message or reader handle). -/
structure RetrievalProviderNode where
  IsUnsealed : Nat → Option Bool
  UnsealSector : Nat → Except String Nat

/-- Error returned by `FetchUnsealedPiece` when the piece has no deals
(mount_api.go:40). -/
def noDealsMsg : String := "no storage deals for Piece"

/-- Initial value of `lastErr` before the second pass (mount_api.go:58). -/
def noSectorsMsg : String := "no sectors found to unseal from"

/-- First pass of `FetchUnsealedPiece` (mount_api.go:44-56): prefer an
unsealed sector; availability-check errors are swallowed (the location is
skipped); a location answering yes is opened, and an open failure also just
skips the location. -/
def unsealedPass (rm : RetrievalProviderNode) : List Nat → Option Nat
  | [] => none
  | d :: rest =>
    match rm.IsUnsealed d with
    | none => unsealedPass rm rest
    | some false => unsealedPass rm rest
    | some true =>
      match rm.UnsealSector d with
      | .ok r => some r
      | .error _ => unsealedPass rm rest

/-- Second pass of `FetchUnsealedPiece` (mount_api.go:58-67): unseal each deal
in order, returning the first success; `lastErr` is updated on each failure
and returned if every deal fails. -/
def unsealPass (rm : RetrievalProviderNode) (lastErr : String) : List Nat → Except String Nat
  | [] => .error lastErr
  | d :: rest =>
    match rm.UnsealSector d with
    | .ok r => .ok r
    | .error e => unsealPass rm e rest

/-- `lotusMountApiImpl.FetchUnsealedPiece` from mount_api.go:33-68, after the
`GetPieceInfo` lookup: `deals` is `pieceInfo.Deals`. -/
def FetchUnsealedPiece (rm : RetrievalProviderNode) (deals : List Nat) : Except String Nat :=
  if deals.length ≤ 0 then .error noDealsMsg
  else
    match unsealedPass rm deals with
    | some r => .ok r
    | none => unsealPass rm noSectorsMsg deals

/-- Modelled from the spec: `shared/tokenamount.TokenAmount` (the package's
implementation is not under src/, only its tests): a nullable
arbitrary-precision integer, `none` being the distinguished nil state. -/
abbrev TokenAmount := Option Int

/-- Big-endian value of a byte sequence (most significant byte first). -/
def beBytesVal : List Nat → Nat
  | [] => 0
  | b :: rest => b * 256 ^ rest.length + beBytesVal rest

/-- Fuel-driven minimal big-endian encoding: `natToBEAux fuel n` is correct
whenever `n ≤ fuel`. -/
def natToBEAux : Nat → Nat → List Nat
  | 0, _ => []
  | fuel + 1, n => if n = 0 then [] else natToBEAux fuel (n / 256) ++ [n % 256]

/-- Minimal big-endian encoding of a natural number (0 encodes to the empty
sequence, as math/big's `Bytes` does). -/
def natToBE (n : Nat) : List Nat := natToBEAux n n

/-- Fixed-width (k-byte) big-endian encoding of `n % 256^k`. -/
def natToBEPad : Nat → Nat → List Nat
  | 0, _ => []
  | k + 1, n => natToBEPad k (n / 256) ++ [n % 256]

/-- Modelled from the spec: `TokenAmount.Bytes` - nil encodes to the empty
byte sequence (the sentinel, distinct from every numeric encoding); a non-nil
value encodes as a sign byte (0 non-negative, 1 negative) followed by the
minimal big-endian magnitude. -/
def tokenAmountBytes : TokenAmount → List Nat
  | none => []
  | some n => (if n < 0 then 1 else 0) :: natToBE n.natAbs

/-- Modelled from the spec: `FromBytes` - the empty sequence decodes to nil; a
leading sign byte 0/1 introduces a signed value; any other byte sequence still
decodes, as a raw big-endian magnitude (the garbage-tolerant fallback the
tests exercise with `FromBytes("garbage")`). -/
def FromBytes : List Nat → TokenAmount
  | [] => none
  | 0 :: rest => some (beBytesVal rest)
  | 1 :: rest => some (-(beBytesVal rest : Int))
  | bs => some (beBytesVal bs)

/-- CBOR byte-string header (major type 2) with minimal-width length. -/
def cborHeader (len : Nat) : List Nat :=
  if len < 24 then [0x40 + len]
  else if len < 2 ^ 8 then 0x58 :: natToBEPad 1 len
  else if len < 2 ^ 16 then 0x59 :: natToBEPad 2 len
  else if len < 2 ^ 32 then 0x5a :: natToBEPad 4 len
  else 0x5b :: natToBEPad 8 len

/-- Modelled from the spec: `TokenAmount.MarshalCBOR` - a CBOR byte string
wrapping the `Bytes` encoding; the nil value's payload is empty, so nil
marshals to the single byte 0x40 (the "@" the tests assert). -/
def MarshalCBOR (a : TokenAmount) : List Nat :=
  cborHeader (tokenAmountBytes a).length ++ tokenAmountBytes a

/-- Modelled from the spec: `TokenAmount.UnmarshalCBOR` - parse a CBOR byte
string (minimal-width length forms only) and decode its payload with
`FromBytes`; the outer `none` is a parse error. -/
def UnmarshalCBOR (bs : List Nat) : Option TokenAmount :=
  match bs with
  | [] => none
  | b :: rest =>
    if 0x40 ≤ b ∧ b < 0x58 then
      if rest.length = b - 0x40 then some (FromBytes rest) else none
    else if b = 0x58 then
      if 1 ≤ rest.length ∧ 24 ≤ beBytesVal (rest.take 1) ∧
          (rest.drop 1).length = beBytesVal (rest.take 1) then
        some (FromBytes (rest.drop 1))
      else none
    else if b = 0x59 then
      if 2 ≤ rest.length ∧ 2 ^ 8 ≤ beBytesVal (rest.take 2) ∧
          (rest.drop 2).length = beBytesVal (rest.take 2) then
        some (FromBytes (rest.drop 2))
      else none
    else if b = 0x5a then
      if 4 ≤ rest.length ∧ 2 ^ 16 ≤ beBytesVal (rest.take 4) ∧
          (rest.drop 4).length = beBytesVal (rest.take 4) then
        some (FromBytes (rest.drop 4))
      else none
    else if b = 0x5b then
      if 8 ≤ rest.length ∧ 2 ^ 32 ≤ beBytesVal (rest.take 8) ∧
          (rest.drop 8).length = beBytesVal (rest.take 8) then
        some (FromBytes (rest.drop 8))
      else none
    else none

/-- `DealProposal` from types.go:369-373 (CIDs abstracted to `Nat`). -/
structure DealProposal where
  PayloadCID : Nat
  ID : Nat
  Params : Params

/-- `DealResponse` from types.go:408-416. -/
structure DealResponse where
  Status : Nat
  ID : Nat
  PaymentOwed : TokenAmount
  Message : String

/-- `DealPayment` from types.go:451-455 (address and signed voucher kept as
opaque values, per the spec's opaque pass-through of the voucher blob). -/
structure DealPayment where
  ID : Nat
  PaymentChannel : Nat
  PaymentVoucher : Option Nat

/-- Error message for a malformed Params node. -/
def errParamsShape : String := "invalid Params node shape"

/-- Error message for a malformed DealProposal node. -/
def errDealProposalShape : String := "invalid DealProposal node shape"

/-- Error message for a malformed DealResponse node. -/
def errDealResponseShape : String := "invalid DealResponse node shape"

/-- Error message for a malformed DealPayment node. -/
def errDealPaymentShape : String := "invalid DealPayment node shape"

/-- Modelled from the spec: the `shared.TypeFromNode` validation of a `Params`
node (shared/ is not under src/): the node must be a map with exactly the
schema's fields in order (types.go:241-252), with an optional selector, a
nullable piece CID link, byte-string prices and non-negative integer
intervals; anything else is a descriptive error. -/
def decodeParamsNode : Node → Except String Params
  | .map [("Selector", sel), ("PieceCID", pcNode), ("PricePerByte", Node.bytes ppb),
          ("PaymentInterval", Node.int payInt), ("PaymentIntervalIncrease", Node.int payInc),
          ("UnsealPrice", Node.bytes up)] =>
    if payInt < 0 ∨ payInc < 0 then .error errParamsShape
    else
      match pcNode with
      | Node.null =>
        .ok { Selector := if sel.isNullNode then none else some sel
              PieceCID := none
              PricePerByte := FromBytes ppb
              PaymentInterval := payInt.toNat
              PaymentIntervalIncrease := payInc.toNat
              UnsealPrice := FromBytes up }
      | Node.link c =>
        .ok { Selector := if sel.isNullNode then none else some sel
              PieceCID := some c
              PricePerByte := FromBytes ppb
              PaymentInterval := payInt.toNat
              PaymentIntervalIncrease := payInc.toNat
              UnsealPrice := FromBytes up }
      | _ => .error errParamsShape
  | _ => .error errParamsShape

/-- Modelled from the spec: `shared.TypeFromNode` validation of a
`DealProposal` node against the schema at types.go:381-390. -/
def decodeDealProposal : Node → Except String DealProposal
  | .map [("PayloadCID", Node.link c), ("ID", Node.int i), ("Params", pn)] =>
    if i < 0 then .error errDealProposalShape
    else
      match decodeParamsNode pn with
      | .error e => .error e
      | .ok ps => .ok { PayloadCID := c, ID := i.toNat, Params := ps }
  | _ => .error errDealProposalShape

/-- Modelled from the spec: `shared.TypeFromNode` validation of a
`DealResponse` node against the schema at types.go:424-433. -/
def decodeDealResponse : Node → Except String DealResponse
  | .map [("Status", Node.int s), ("ID", Node.int i), ("PaymentOwed", Node.bytes po),
          ("Message", Node.string m)] =>
    if s < 0 ∨ i < 0 then .error errDealResponseShape
    else .ok { Status := s.toNat, ID := i.toNat, PaymentOwed := FromBytes po, Message := m }
  | _ => .error errDealResponseShape

/-- Modelled from the spec: `shared.TypeFromNode` validation of a
`DealPayment` node against the schema at types.go:458-491 (the signed voucher
is an opaque nullable blob). -/
def decodeDealPayment : Node → Except String DealPayment
  | .map [("ID", Node.int i), ("PaymentChannel", Node.bytes ch), ("PaymentVoucher", vn)] =>
    if i < 0 then .error errDealPaymentShape
    else
      match vn with
      | Node.null => .ok { ID := i.toNat, PaymentChannel := beBytesVal ch, PaymentVoucher := none }
      | Node.bytes vb =>
        .ok { ID := i.toNat, PaymentChannel := beBytesVal ch, PaymentVoucher := some (beBytesVal vb) }
      | _ => .error errDealPaymentShape
  | _ => .error errDealPaymentShape

/-- Error message for a nil voucher node (types.go:394, 440, 503). -/
def emptyVoucherMsg : String := "empty voucher"

/-- Error prefix wrapped around decode failures of DealProposal (types.go:398). -/
def invalidDealProposalPrefix : String := "invalid DealProposal: "

/-- Error prefix wrapped around decode failures of DealResponse (types.go:444). -/
def invalidDealResponsePrefix : String := "invalid DealResponse: "

/-- Error prefix wrapped around decode failures of DealPayment (types.go:507). -/
def invalidDealPaymentPrefix : String := "invalid DealPayment: "

/-- `DealProposalFromNode` from types.go:392-402; `none` models the nil
`datamodel.Node` interface value. -/
def DealProposalFromNode : Option Node → Except String DealProposal
  | none => .error emptyVoucherMsg
  | some node =>
    match decodeDealProposal node with
    | .error e => .error (invalidDealProposalPrefix ++ e)
    | .ok dp => .ok dp

/-- `DealResponseFromNode` from types.go:438-448. -/
def DealResponseFromNode : Option Node → Except String DealResponse
  | none => .error emptyVoucherMsg
  | some node =>
    match decodeDealResponse node with
    | .error e => .error (invalidDealResponsePrefix ++ e)
    | .ok dr => .ok dr

/-- `DealPaymentFromNode` from types.go:501-511. -/
def DealPaymentFromNode : Option Node → Except String DealPayment
  | none => .error emptyVoucherMsg
  | some node =>
    match decodeDealPayment node with
    | .error e => .error (invalidDealPaymentPrefix ++ e)
    | .ok dp => .ok dp

/-- The interval loop diverges at `cur`: no amount of fuel makes either
`IntervalLowerBound` or `nextInterval` return. -/
def loopDivergesAt (p : Params) (cur : Nat) : Prop :=
  ∀ fuel, p.IntervalLowerBound cur fuel = none ∧ p.nextInterval cur fuel = none

/-- A Params value whose PricePerByte is the nil TokenAmount and whose unseal
price is zero. -/
def pNilPrice : Params := { PricePerByte := none, UnsealPrice := some 0 }

/-- C4: the claim (and spec section 4.2) say a nil price-per-byte must behave
like zero in OutstandingBalance, taking the free-deal path and returning 0.
The code instead calls `p.PricePerByte.IsZero()`, which dereferences the nil
`*big.Int` and panics (modelled by the `none` result); the nil-safe
`NilOrZero` used by `NextInterval` shows the intent.  This theorem evaluates
the embedded code at the failing input. -/
theorem outstandingBalance_nil_price_panics :
    pNilPrice.OutstandingBalance (some 0) 0 false 1 = none ∧
    pNilPrice.PricePerByte = none := by
  constructor <;> rfl

/-- C8: IsTerminalStatus holds exactly on {deal-not-found, failing, rejected,
completed}, IsTerminalError exactly on {deal-not-found, failing, rejected},
IsTerminalSuccess exactly on {completed}, and every other status - including
the mid-transfer ones - is non-terminal. -/
theorem terminal_status_iff :
    (∀ s : Nat,
      (IsTerminalStatus s = true ↔
        s = DealStatusDealNotFound ∨ s = DealStatusFailing ∨ s = DealStatusRejected ∨
          s = DealStatusCompleted) ∧
      (IsTerminalError s = true ↔
        s = DealStatusDealNotFound ∨ s = DealStatusFailing ∨ s = DealStatusRejected) ∧
      (IsTerminalSuccess s = true ↔ s = DealStatusCompleted)) ∧
    IsTerminalStatus DealStatusOngoing = false ∧
    IsTerminalStatus DealStatusFundsNeeded = false ∧
    IsTerminalStatus DealStatusFundsNeededLastPayment = false ∧
    IsTerminalStatus DealStatusFinalizing = false ∧
    IsTerminalStatus DealStatusNew = false := by
  refine ⟨fun s => ?_, by decide, by decide, by decide, by decide, by decide⟩
  simp only [IsTerminalStatus, IsTerminalError, IsTerminalSuccess, Bool.or_eq_true,
    beq_iff_eq]
  exact ⟨by tauto, by tauto, by tauto⟩

/-- C10 counterexample: the IPLD null node is a non-nil selector, so
NewParamsV1 accepts it without error, yet SelectorSpecified is false on the
result (the nullable wrapper treats the null node as the null marker), contrary
to the claim that every non-nil selector yields SelectorSpecified = true. -/
theorem newParamsV1_null_selector_cex :
    (NewParamsV1 (some 1) 100 50 (some Node.null) none (some 0)).2 = none ∧
    (NewParamsV1 (some 1) 100 50 (some Node.null) none (some 0)).1.SelectorSpecified = false := by
  constructor <;> rfl

/-- C10 amended: NewParamsV1 with a nil selector returns the zero Params and
the "selector required" error; with a non-nil selector that is not the IPLD
null node it returns, without error, a Params carrying exactly the given
fields, and SelectorSpecified is true on that result. -/
theorem newParamsV1_behavior (pricePerByte unsealPrice : Option Int)
    (payInterval payIncrease : Nat) (pieceCid : Option Nat) :
    NewParamsV1 pricePerByte payInterval payIncrease none pieceCid unsealPrice =
      (zeroParams, some selectorRequiredMsg) ∧
    (∀ s : Node, s.isNullNode = false →
      NewParamsV1 pricePerByte payInterval payIncrease (some s) pieceCid unsealPrice =
        ({ Selector := some s
           PieceCID := pieceCid
           PricePerByte := pricePerByte
           PaymentInterval := payInterval
           PaymentIntervalIncrease := payIncrease
           UnsealPrice := unsealPrice }, none) ∧
      (NewParamsV1 pricePerByte payInterval payIncrease (some s) pieceCid
          unsealPrice).1.SelectorSpecified = true) := by
  refine ⟨rfl, fun s hs => ⟨rfl, ?_⟩⟩
  simp [NewParamsV1, Params.SelectorSpecified, nodeIsNull, hs]

/-- Witness for the amended C10 at concrete inputs. -/
theorem newParamsV1_behavior_witness :
    NewParamsV1 (some 10) 100 50 none none (some 0) = (zeroParams, some selectorRequiredMsg) ∧
    (NewParamsV1 (some 10) 100 50 (some (Node.int 1)) none (some 0) =
      ({ Selector := some (Node.int 1)
         PieceCID := none
         PricePerByte := some 10
         PaymentInterval := 100
         PaymentIntervalIncrease := 50
         UnsealPrice := some 0 }, none) ∧
     (NewParamsV1 (some 10) 100 50 (some (Node.int 1)) none (some 0)).1.SelectorSpecified = true) :=
  ⟨(newParamsV1_behavior (some 10) (some 0) 100 50 none).1,
   (newParamsV1_behavior (some 10) (some 0) 100 50 none).2 (Node.int 1) rfl⟩

/-- C7: each FromNode decoder rejects the nil node with the "empty voucher"
error; a decode failure on a present node is reported as a descriptive
"invalid <type>: ..." error (never a crash - the functions are total); and a
node of the wrong kind is concretely rejected. -/
theorem fromNode_error_handling :
    (DealProposalFromNode none = .error emptyVoucherMsg ∧
     DealResponseFromNode none = .error emptyVoucherMsg ∧
     DealPaymentFromNode none = .error emptyVoucherMsg) ∧
    (∀ n e, decodeDealProposal n = .error e →
      DealProposalFromNode (some n) = .error (invalidDealProposalPrefix ++ e)) ∧
    (∀ n e, decodeDealResponse n = .error e →
      DealResponseFromNode (some n) = .error (invalidDealResponsePrefix ++ e)) ∧
    (∀ n e, decodeDealPayment n = .error e →
      DealPaymentFromNode (some n) = .error (invalidDealPaymentPrefix ++ e)) ∧
    (DealProposalFromNode (some (Node.int 0)) =
       .error (invalidDealProposalPrefix ++ errDealProposalShape) ∧
     DealResponseFromNode (some (Node.int 0)) =
       .error (invalidDealResponsePrefix ++ errDealResponseShape) ∧
     DealPaymentFromNode (some (Node.int 0)) =
       .error (invalidDealPaymentPrefix ++ errDealPaymentShape)) := by
  refine ⟨⟨rfl, rfl, rfl⟩, ?_, ?_, ?_, rfl, rfl, rfl⟩ <;> intro n e h
  · simp [DealProposalFromNode, h]
  · simp [DealResponseFromNode, h]
  · simp [DealPaymentFromNode, h]

/-- Witness for C7 at a concrete malformed node. -/
theorem fromNode_error_handling_witness :
    DealResponseFromNode (some (Node.string "x")) =
      .error (invalidDealResponsePrefix ++ errDealResponseShape) :=
  fromNode_error_handling.2.2.1 (Node.string "x") errDealResponseShape rfl

/-- A deal offers a zero-extra-work read when its availability check answers
yes and its open succeeds. -/
def readilyOpens (rm : RetrievalProviderNode) (d : Nat) : Prop :=
  rm.IsUnsealed d = some true ∧ ∃ x, rm.UnsealSector d = .ok x

theorem unsealedPass_skip (rm : RetrievalProviderNode) (pre l : List Nat)
    (h : ∀ e ∈ pre, ¬readilyOpens rm e) :
    unsealedPass rm (pre ++ l) = unsealedPass rm l := by
  induction pre with
  | nil => rfl
  | cons a pre ih =>
    have ha := h a (List.mem_cons_self a pre)
    have hrest : ∀ e ∈ pre, ¬readilyOpens rm e := fun e he => h e (List.mem_cons_of_mem a he)
    simp only [List.cons_append, unsealedPass]
    cases hu : rm.IsUnsealed a with
    | none => exact ih hrest
    | some b =>
      cases b with
      | false => exact ih hrest
      | true =>
        cases hs : rm.UnsealSector a with
        | ok x => exact absurd ⟨hu, ⟨x, hs⟩⟩ ha
        | error e => exact ih hrest

theorem unsealedPass_hit (rm : RetrievalProviderNode) (d : Nat) (post : List Nat) (r : Nat)
    (hu : rm.IsUnsealed d = some true) (hs : rm.UnsealSector d = .ok r) :
    unsealedPass rm (d :: post) = some r := by
  simp [unsealedPass, hu, hs]

theorem unsealedPass_none (rm : RetrievalProviderNode) (deals : List Nat)
    (h : ∀ e ∈ deals, ¬readilyOpens rm e) :
    unsealedPass rm deals = none := by
  have := unsealedPass_skip rm deals [] h
  simpa using this

theorem unsealPass_hit (rm : RetrievalProviderNode) (pre : List Nat) (d : Nat) (post : List Nat)
    (r : Nat) (hpre : ∀ e ∈ pre, ∀ x, rm.UnsealSector e ≠ .ok x)
    (hd : rm.UnsealSector d = .ok r) :
    ∀ le, unsealPass rm le (pre ++ d :: post) = .ok r := by
  induction pre with
  | nil => intro le; simp [unsealPass, hd]
  | cons a pre ih =>
    intro le
    have ha := hpre a (List.mem_cons_self a pre)
    have hrest : ∀ e ∈ pre, ∀ x, rm.UnsealSector e ≠ .ok x :=
      fun e he => hpre e (List.mem_cons_of_mem a he)
    simp only [List.cons_append, unsealPass]
    cases hs : rm.UnsealSector a with
    | ok x => exact absurd hs (ha x)
    | error e2 => exact ih hrest e2

theorem unsealPass_all_fail (rm : RetrievalProviderNode) (pre : List Nat) (d : Nat) (er : String)
    (hfail : ∀ e ∈ pre, ∀ x, rm.UnsealSector e ≠ .ok x)
    (hd : rm.UnsealSector d = .error er) :
    ∀ le, unsealPass rm le (pre ++ [d]) = .error er := by
  induction pre with
  | nil => intro le; simp [unsealPass, hd]
  | cons a pre ih =>
    intro le
    have ha := hfail a (List.mem_cons_self a pre)
    have hrest : ∀ e ∈ pre, ∀ x, rm.UnsealSector e ≠ .ok x :=
      fun e he => hfail e (List.mem_cons_of_mem a he)
    simp only [List.cons_append, unsealPass]
    cases hs : rm.UnsealSector a with
    | ok x => exact absurd hs (ha x)
    | error e2 => exact ih hrest e2

/-- C3: the locator (i) fails with the "no storage deals" error on an empty
catalog; (ii) in the first pass, returns immediately the stream of the first
location whose availability check answers yes and whose open succeeds,
skipping availability-check errors and unavailable or unopenable locations
before it; (iii) when no location is both available and openable, returns the
stream of the first location whose materialize-and-open succeeds; (iv) when
every location fails both passes, fails with the last recorded open error;
and (v, vi) on three locations of which only the third is already available,
open() is attempted on the third first, and locations one and two are used
only if the third's open fails. -/
theorem fetchUnsealedPiece_two_pass (rm : RetrievalProviderNode) :
    (FetchUnsealedPiece rm [] = .error noDealsMsg) ∧
    (∀ pre d post r, (∀ e ∈ pre, ¬readilyOpens rm e) →
      rm.IsUnsealed d = some true → rm.UnsealSector d = .ok r →
      FetchUnsealedPiece rm (pre ++ d :: post) = .ok r) ∧
    (∀ pre d post r, (∀ e ∈ (pre ++ d :: post), ¬readilyOpens rm e) →
      (∀ e ∈ pre, ∀ x, rm.UnsealSector e ≠ .ok x) → rm.UnsealSector d = .ok r →
      FetchUnsealedPiece rm (pre ++ d :: post) = .ok r) ∧
    (∀ pre d er, (∀ e ∈ (pre ++ [d]), ¬readilyOpens rm e) →
      (∀ e ∈ pre, ∀ x, rm.UnsealSector e ≠ .ok x) → rm.UnsealSector d = .error er →
      FetchUnsealedPiece rm (pre ++ [d]) = .error er) ∧
    (∀ d1 d2 d3 r, rm.IsUnsealed d1 ≠ some true → rm.IsUnsealed d2 ≠ some true →
      rm.IsUnsealed d3 = some true → rm.UnsealSector d3 = .ok r →
      FetchUnsealedPiece rm [d1, d2, d3] = .ok r) ∧
    (∀ d1 d2 d3 er r1, rm.IsUnsealed d1 ≠ some true → rm.IsUnsealed d2 ≠ some true →
      rm.IsUnsealed d3 = some true → rm.UnsealSector d3 = .error er →
      rm.UnsealSector d1 = .ok r1 →
      FetchUnsealedPiece rm [d1, d2, d3] = .ok r1) := by
  have hne : ∀ (pre : List Nat) (d : Nat) (post : List Nat),
      ¬((pre ++ d :: post).length ≤ 0) := by
    intro pre d post h
    simp [List.length_append] at h
  refine ⟨rfl, ?_, ?_, ?_, ?_, ?_⟩
  · intro pre d post r hpre hu hs
    have h1 : unsealedPass rm (pre ++ d :: post) = some r := by
      rw [unsealedPass_skip rm pre (d :: post) hpre, unsealedPass_hit rm d post r hu hs]
    simp [FetchUnsealedPiece, hne pre d post, h1]
  · intro pre d post r hall hpre hd
    have h1 : unsealedPass rm (pre ++ d :: post) = none := unsealedPass_none rm _ hall
    have h2 := unsealPass_hit rm pre d post r hpre hd noSectorsMsg
    simp [FetchUnsealedPiece, hne pre d post, h1, h2]
  · intro pre d er hall hpre hd
    have h1 : unsealedPass rm (pre ++ [d]) = none := unsealedPass_none rm _ hall
    have h2 := unsealPass_all_fail rm pre d er hpre hd noSectorsMsg
    have hne2 : ¬((pre ++ [d]).length ≤ 0) := hne pre d []
    simp [FetchUnsealedPiece, hne2, h1, h2]
  · intro d1 d2 d3 r h1 h2 h3 hs
    have hpre : ∀ e ∈ [d1, d2], ¬readilyOpens rm e := by
      intro e he hro
      rcases List.mem_cons.1 he with rfl | he2
      · exact h1 hro.1
      · rcases List.mem_cons.1 he2 with rfl | he3
        · exact h2 hro.1
        · simp at he3
    have := unsealedPass_skip rm [d1, d2] [d3] hpre
    have hhit := unsealedPass_hit rm d3 [] r h3 hs
    have hp1 : unsealedPass rm [d1, d2, d3] = some r := by
      have happ : ([d1, d2] ++ [d3] : List Nat) = [d1, d2, d3] := rfl
      rw [← happ, this, hhit]
    simp [FetchUnsealedPiece, hp1]
  · intro d1 d2 d3 er r1 h1 h2 h3 hs hok
    have hall : ∀ e ∈ [d1, d2, d3], ¬readilyOpens rm e := by
      intro e he hro
      rcases List.mem_cons.1 he with rfl | he2
      · exact h1 hro.1
      · rcases List.mem_cons.1 he2 with rfl | he3
        · exact h2 hro.1
        · rcases List.mem_cons.1 he3 with rfl | he4
          · rcases hro.2 with ⟨x, hx⟩
            rw [hs] at hx
            exact Except.noConfusion hx
          · simp at he4
    have hp1 : unsealedPass rm [d1, d2, d3] = none := unsealedPass_none rm _ hall
    have hp2 : unsealPass rm noSectorsMsg [d1, d2, d3] = .ok r1 := by
      have := unsealPass_hit rm [] d1 [d2, d3] r1 (by intro e he; simp at he) hok noSectorsMsg
      simpa using this
    simp [FetchUnsealedPiece, hp1, hp2]

/-- Witness for C3 at a concrete three-location catalog: only the third
location is already available, its open succeeds and is returned. -/
theorem fetchUnsealedPiece_two_pass_witness :
    FetchUnsealedPiece
      { IsUnsealed := fun d => if d = 3 then some true else some false
        UnsealSector := fun d => .ok (100 + d) } [1, 2, 3] = .ok 103 :=
  (fetchUnsealedPiece_two_pass _).2.2.2.2.1 1 2 3 103 (by decide) (by decide) rfl rfl

theorem beBytesVal_append (xs ys : List Nat) :
    beBytesVal (xs ++ ys) = beBytesVal xs * 256 ^ ys.length + beBytesVal ys := by
  induction xs with
  | nil => simp [beBytesVal]
  | cons b xs ih =>
    simp only [List.cons_append, beBytesVal, ih, List.append_eq]
    have hl : (xs ++ ys).length = xs.length + ys.length := List.length_append xs ys
    rw [hl, pow_add]
    ring

theorem natToBEAux_val : ∀ fuel n, n ≤ fuel → beBytesVal (natToBEAux fuel n) = n := by
  intro fuel
  induction fuel with
  | zero =>
    intro n hn
    have : n = 0 := Nat.le_zero.1 hn
    subst this
    rfl
  | succ f ih =>
    intro n hn
    by_cases h0 : n = 0
    · subst h0; rfl
    · have hdiv : n / 256 ≤ f := by
        have := Nat.div_lt_self (Nat.pos_of_ne_zero h0) (by norm_num : 1 < 256)
        omega
      simp only [natToBEAux, h0, if_false]
      rw [beBytesVal_append, ih _ hdiv]
      have hdm := Nat.div_add_mod n 256
      simp [beBytesVal]
      omega

theorem natToBE_val (n : Nat) : beBytesVal (natToBE n) = n :=
  natToBEAux_val n n (le_refl n)

theorem natToBEPad_length : ∀ k n, (natToBEPad k n).length = k := by
  intro k
  induction k with
  | zero => intro n; rfl
  | succ k ih => intro n; simp [natToBEPad, ih]

theorem mod_mul_decomp (n k : Nat) :
    n % 256 ^ (k + 1) = (n / 256 % 256 ^ k) * 256 + n % 256 := by
  have h1 : (256 : Nat) ^ (k + 1) = 256 * 256 ^ k := by ring
  rw [h1, Nat.mod_mul]
  ring

theorem natToBEPad_val : ∀ k n, beBytesVal (natToBEPad k n) = n % 256 ^ k := by
  intro k
  induction k with
  | zero => intro n; simp [natToBEPad, beBytesVal, Nat.mod_one]
  | succ k ih =>
    intro n
    simp only [natToBEPad]
    rw [beBytesVal_append, ih, mod_mul_decomp]
    simp [beBytesVal]

theorem fromBytes_bytes (a : TokenAmount) : FromBytes (tokenAmountBytes a) = a := by
  match a with
  | none => rfl
  | some n =>
    by_cases hneg : n < 0
    · simp only [tokenAmountBytes, if_pos hneg]
      show some (-(beBytesVal (natToBE n.natAbs) : Int)) = some n
      rw [natToBE_val]
      congr 1
      omega
    · simp only [tokenAmountBytes, if_neg hneg]
      show some ((beBytesVal (natToBE n.natAbs) : Int)) = some n
      rw [natToBE_val]
      congr 1
      omega

theorem unmarshalCBOR_short (p : List Nat) (h24 : p.length < 24) :
    UnmarshalCBOR ((0x40 + p.length) :: p) = some (FromBytes p) := by
  simp only [UnmarshalCBOR]
  rw [if_pos (by omega : 0x40 ≤ 0x40 + p.length ∧ 0x40 + p.length < 0x58),
    if_pos (by omega : p.length = 0x40 + p.length - 0x40)]

theorem padSplit (k : Nat) (p : List Nat) (hhi : p.length < 256 ^ k) :
    (natToBEPad k p.length ++ p).drop k = p ∧
    beBytesVal ((natToBEPad k p.length ++ p).take k) = p.length := by
  have htake : (natToBEPad k p.length ++ p).take k = natToBEPad k p.length := by
    have := List.take_left (natToBEPad k p.length) p
    rwa [natToBEPad_length] at this
  have hdrop : (natToBEPad k p.length ++ p).drop k = p := by
    have := List.drop_left (natToBEPad k p.length) p
    rwa [natToBEPad_length] at this
  exact ⟨hdrop, by rw [htake, natToBEPad_val, Nat.mod_eq_of_lt hhi]⟩

theorem unmarshalCBOR_form1 (p : List Nat) (hlo : 24 ≤ p.length) (hhi : p.length < 256) :
    UnmarshalCBOR (0x58 :: (natToBEPad 1 p.length ++ p)) = some (FromBytes p) := by
  obtain ⟨hdrop, hval⟩ := padSplit 1 p (by omega)
  simp only [UnmarshalCBOR]
  rw [if_neg (by omega : ¬(0x40 ≤ 0x58 ∧ 0x58 < 0x58)), if_pos trivial]
  rw [if_pos ⟨by simp [natToBEPad_length], by rw [hval]; omega, by rw [hval, hdrop]⟩, hdrop]

theorem unmarshalCBOR_form2 (p : List Nat) (hlo : 256 ≤ p.length) (hhi : p.length < 65536) :
    UnmarshalCBOR (0x59 :: (natToBEPad 2 p.length ++ p)) = some (FromBytes p) := by
  obtain ⟨hdrop, hval⟩ := padSplit 2 p (by omega)
  simp only [UnmarshalCBOR]
  rw [if_neg (by omega : ¬(0x40 ≤ 0x59 ∧ 0x59 < 0x58)),
    if_neg (by decide : ¬((0x59 : Nat) = 0x58)), if_pos trivial]
  rw [if_pos ⟨by simp [natToBEPad_length], by rw [hval]; omega, by rw [hval, hdrop]⟩, hdrop]

theorem unmarshalCBOR_form4 (p : List Nat) (hlo : 65536 ≤ p.length)
    (hhi : p.length < 4294967296) :
    UnmarshalCBOR (0x5a :: (natToBEPad 4 p.length ++ p)) = some (FromBytes p) := by
  obtain ⟨hdrop, hval⟩ := padSplit 4 p (by omega)
  simp only [UnmarshalCBOR]
  rw [if_neg (by omega : ¬(0x40 ≤ 0x5a ∧ 0x5a < 0x58)),
    if_neg (by decide : ¬((0x5a : Nat) = 0x58)), if_neg (by decide : ¬((0x5a : Nat) = 0x59)),
    if_pos trivial]
  rw [if_pos ⟨by simp [natToBEPad_length], by rw [hval]; omega, by rw [hval, hdrop]⟩, hdrop]

theorem unmarshalCBOR_form8 (p : List Nat) (hlo : 4294967296 ≤ p.length)
    (hhi : p.length < 18446744073709551616) :
    UnmarshalCBOR (0x5b :: (natToBEPad 8 p.length ++ p)) = some (FromBytes p) := by
  obtain ⟨hdrop, hval⟩ := padSplit 8 p (by omega)
  simp only [UnmarshalCBOR]
  rw [if_neg (by omega : ¬(0x40 ≤ 0x5b ∧ 0x5b < 0x58)),
    if_neg (by decide : ¬((0x5b : Nat) = 0x58)), if_neg (by decide : ¬((0x5b : Nat) = 0x59)),
    if_neg (by decide : ¬((0x5b : Nat) = 0x5a)), if_pos trivial]
  rw [if_pos ⟨by simp [natToBEPad_length], by rw [hval]; omega, by rw [hval, hdrop]⟩, hdrop]

theorem cbor_roundtrip (a : TokenAmount) (h : (tokenAmountBytes a).length < 2 ^ 64) :
    UnmarshalCBOR (MarshalCBOR a) = some a := by
  have hfb : FromBytes (tokenAmountBytes a) = a := fromBytes_bytes a
  have h64 : (tokenAmountBytes a).length < 18446744073709551616 := by
    have : (2 : Nat) ^ 64 = 18446744073709551616 := by norm_num
    omega
  by_cases h24 : (tokenAmountBytes a).length < 24
  · have hm : MarshalCBOR a = (0x40 + (tokenAmountBytes a).length) :: tokenAmountBytes a := by
      simp [MarshalCBOR, cborHeader, h24]
    rw [hm, unmarshalCBOR_short _ h24, hfb]
  · by_cases h8 : (tokenAmountBytes a).length < 256
    · have hm : MarshalCBOR a =
          0x58 :: (natToBEPad 1 (tokenAmountBytes a).length ++ tokenAmountBytes a) := by
        simp [MarshalCBOR, cborHeader, h24, h8, List.cons_append]
      rw [hm, unmarshalCBOR_form1 _ (by omega) h8, hfb]
    · by_cases h16 : (tokenAmountBytes a).length < 65536
      · have hm : MarshalCBOR a =
            0x59 :: (natToBEPad 2 (tokenAmountBytes a).length ++ tokenAmountBytes a) := by
          simp [MarshalCBOR, cborHeader, h24, h8, h16, List.cons_append]
        rw [hm, unmarshalCBOR_form2 _ (by omega) h16, hfb]
      · by_cases h32 : (tokenAmountBytes a).length < 4294967296
        · have hm : MarshalCBOR a =
              0x5a :: (natToBEPad 4 (tokenAmountBytes a).length ++ tokenAmountBytes a) := by
            simp [MarshalCBOR, cborHeader, h24, h8, h16, h32, List.cons_append]
          rw [hm, unmarshalCBOR_form4 _ (by omega) h32, hfb]
        · have hm : MarshalCBOR a =
              0x5b :: (natToBEPad 8 (tokenAmountBytes a).length ++ tokenAmountBytes a) := by
            simp [MarshalCBOR, cborHeader, h24, h8, h16, h32, List.cons_append]
          rw [hm, unmarshalCBOR_form8 _ (by omega) h64, hfb]

/-- C6: decoding the byte encoding of any non-nil TokenAmount - both FromBytes
of Bytes and CBOR unmarshal of the CBOR marshal (for any value whose payload
fits a CBOR length header, which every representable value does) - reproduces
the value exactly; the nil TokenAmount encodes to the empty byte string, whose
CBOR form is the single byte 0x40 ("@"), and decoding that sentinel reproduces
nil. -/
theorem tokenAmount_roundtrip :
    (∀ a : Int, FromBytes (tokenAmountBytes (some a)) = some a) ∧
    (∀ a : Int, (tokenAmountBytes (some a)).length < 2 ^ 64 →
      UnmarshalCBOR (MarshalCBOR (some a)) = some (some a)) ∧
    tokenAmountBytes none = ([] : List Nat) ∧
    MarshalCBOR none = [0x40] ∧
    FromBytes [] = (none : TokenAmount) ∧
    UnmarshalCBOR [0x40] = some (none : TokenAmount) :=
  ⟨fun a => fromBytes_bytes (some a), fun a h => cbor_roundtrip (some a) h,
   rfl, rfl, rfl, rfl⟩

/-- Witness for C6 at the concrete value 12345 from the tests. -/
theorem tokenAmount_roundtrip_witness :
    UnmarshalCBOR (MarshalCBOR (some 12345)) = some (some 12345) :=
  tokenAmount_roundtrip.2.1 12345 (by decide)

theorem checked_imp_loop (inc cur : Nat) :
    ∀ fuel lb t s x, intervalLoopChecked inc cur fuel lb t s = some x →
      intervalLoop inc cur fuel lb t s = some x := by
  intro fuel
  induction fuel with
  | zero => intro lb t s x h; exact absurd h (by simp [intervalLoopChecked])
  | succ f ih =>
    intro lb t s x h
    simp only [intervalLoopChecked] at h
    simp only [intervalLoop]
    by_cases hc : t ≤ cur
    · rw [if_pos hc] at h ⊢
      by_cases hg : t + s < U64 ∧ s + inc < U64
      · rw [if_pos hg] at h
        rw [Nat.mod_eq_of_lt hg.1, Nat.mod_eq_of_lt hg.2]
        exact ih _ _ _ _ h
      · rw [if_neg hg] at h
        exact absurd h (by simp)
    · rw [if_neg hc] at h ⊢
      exact h

theorem checked_imp_spec (inc cur : Nat) :
    ∀ fuel lb t s x, intervalLoopChecked inc cur fuel lb t s = some x →
      intervalLoopSpec inc cur fuel lb t s = some x := by
  intro fuel
  induction fuel with
  | zero => intro lb t s x h; exact absurd h (by simp [intervalLoopChecked])
  | succ f ih =>
    intro lb t s x h
    simp only [intervalLoopChecked] at h
    simp only [intervalLoopSpec]
    by_cases hc : t ≤ cur
    · rw [if_pos hc] at h ⊢
      by_cases hg : t + s < U64 ∧ s + inc < U64
      · rw [if_pos hg] at h
        exact ih _ _ _ _ h
      · rw [if_neg hg] at h
        exact absurd h (by simp)
    · rw [if_neg hc] at h ⊢
      exact h

theorem spec_fuelMono (inc cur : Nat) :
    ∀ f1 f2 lb t s x, f1 ≤ f2 → intervalLoopSpec inc cur f1 lb t s = some x →
      intervalLoopSpec inc cur f2 lb t s = some x := by
  intro f1
  induction f1 with
  | zero => intro f2 lb t s x _ h; exact absurd h (by simp [intervalLoopSpec])
  | succ f ih =>
    intro f2 lb t s x hle h
    obtain ⟨f2p, rfl⟩ : ∃ f2p, f2 = f2p + 1 := ⟨f2 - 1, by omega⟩
    simp only [intervalLoopSpec] at h ⊢
    by_cases hc : t ≤ cur
    · rw [if_pos hc] at h ⊢
      exact ih f2p _ _ _ _ (by omega) h
    · rw [if_neg hc] at h ⊢
      exact h

theorem spec_grow (inc cur : Nat) :
    ∀ f lb t s v w, intervalLoopSpec inc cur f lb t s = some (v, w) → lb ≤ t →
      lb ≤ v ∧ t ≤ w := by
  intro f
  induction f with
  | zero => intro lb t s v w h _; exact absurd h (by simp [intervalLoopSpec])
  | succ f ih =>
    intro lb t s v w h hlt
    simp only [intervalLoopSpec] at h
    by_cases hc : t ≤ cur
    · rw [if_pos hc] at h
      have := ih t (t + s) (s + inc) v w h (Nat.le_add_right t s)
      exact ⟨le_trans hlt this.1, le_trans (Nat.le_add_right t s) this.2⟩
    · rw [if_neg hc] at h
      injection h with h2
      obtain ⟨rfl, rfl⟩ := Prod.mk.injEq .. ▸ Prod.ext_iff.1 h2
      exact ⟨le_refl _, le_refl _⟩

theorem spec_mono (inc cur1 cur2 : Nat) (h12 : cur1 ≤ cur2) :
    ∀ f lb t s v1 w1 v2 w2, lb ≤ t →
      intervalLoopSpec inc cur1 f lb t s = some (v1, w1) →
      intervalLoopSpec inc cur2 f lb t s = some (v2, w2) →
      v1 ≤ v2 ∧ w1 ≤ w2 := by
  intro f
  induction f with
  | zero => intro lb t s v1 w1 v2 w2 _ h1 _; exact absurd h1 (by simp [intervalLoopSpec])
  | succ f ih =>
    intro lb t s v1 w1 v2 w2 hlt h1 h2
    simp only [intervalLoopSpec] at h1 h2
    by_cases hc1 : t ≤ cur1
    · rw [if_pos hc1] at h1
      rw [if_pos (le_trans hc1 h12)] at h2
      exact ih t (t + s) (s + inc) v1 w1 v2 w2 (Nat.le_add_right t s) h1 h2
    · rw [if_neg hc1] at h1
      injection h1 with h1e
      obtain ⟨rfl, rfl⟩ := Prod.mk.injEq .. ▸ Prod.ext_iff.1 h1e
      by_cases hc2 : t ≤ cur2
      · rw [if_pos hc2] at h2
        have := spec_grow inc cur2 f t (t + s) (s + inc) v2 w2 h2 (Nat.le_add_right t s)
        exact ⟨le_trans hlt this.1, le_trans (Nat.le_add_right t s) this.2⟩
      · rw [if_neg hc2] at h2
        injection h2 with h2e
        obtain ⟨rfl, rfl⟩ := Prod.mk.injEq .. ▸ Prod.ext_iff.1 h2e
        exact ⟨le_refl _, le_refl _⟩

theorem loop_gt (inc cur : Nat) :
    ∀ f lb t s v w, intervalLoop inc cur f lb t s = some (v, w) → cur < w := by
  intro f
  induction f with
  | zero => intro lb t s v w h; exact absurd h (by simp [intervalLoop])
  | succ f ih =>
    intro lb t s v w h
    simp only [intervalLoop] at h
    by_cases hc : t ≤ cur
    · rw [if_pos hc] at h
      exact ih _ _ _ _ _ h
    · rw [if_neg hc] at h
      injection h with h2
      obtain ⟨rfl, rfl⟩ := Prod.mk.injEq .. ▸ Prod.ext_iff.1 h2
      omega

theorem checked_terminates (inc cur : Nat) :
    ∀ f lb t s, 1 ≤ s → cur < t + f → cur + 2 * (s + f * inc) < U64 →
      ∃ x, intervalLoopChecked inc cur (f + 1) lb t s = some x := by
  intro f
  induction f with
  | zero =>
    intro lb t s hs hf hw
    refine ⟨(lb, t), ?_⟩
    simp only [intervalLoopChecked]
    rw [if_neg (by omega)]
  | succ f ih =>
    intro lb t s hs hf hw
    have hA : (f + 1) * inc = f * inc + inc := by ring
    rw [hA] at hw
    by_cases hc : t ≤ cur
    · have hg : t + s < U64 ∧ s + inc < U64 := by omega
      obtain ⟨x, hx⟩ := ih t (t + s) (s + inc) (by omega) (by omega) (by omega)
      refine ⟨x, ?_⟩
      simp only [intervalLoopChecked]
      rw [if_pos hc, if_pos hg]
      exact hx
    · refine ⟨(lb, t), ?_⟩
      simp only [intervalLoopChecked]
      rw [if_neg hc]

theorem checked_step (inc cur f lb t s : Nat) (hc : t ≤ cur)
    (hg : t + s < U64 ∧ s + inc < U64) :
    intervalLoopChecked inc cur (f + 1) lb t s =
      intervalLoopChecked inc cur f t (t + s) (s + inc) := by
  simp only [intervalLoopChecked]
  rw [if_pos hc, if_pos hg]

theorem loop_diverges_zero (cur : Nat) :
    ∀ fuel lb t, t ≤ cur → intervalLoop 0 cur fuel lb t 0 = none := by
  intro fuel
  induction fuel with
  | zero => intro lb t _; rfl
  | succ f ih =>
    intro lb t ht
    simp only [intervalLoop]
    rw [if_pos ht]
    have h1 : (t + 0) % U64 = t % U64 := by rw [Nat.add_zero]
    have h2 : (0 + 0) % U64 = 0 := rfl
    rw [h1, h2]
    exact ih t (t % U64) (le_trans (Nat.mod_le t U64) ht)

theorem loop_diverges_cycle :
    ∀ fuel lb t s, (t = 0 ∨ t = 2 ^ 63) → (s = 0 ∨ s = 2 ^ 63) →
      intervalLoop (2 ^ 63) (2 ^ 63) fuel lb t s = none := by
  intro fuel
  induction fuel with
  | zero => intro lb t s _ _; rfl
  | succ f ih =>
    intro lb t s ht hs
    simp only [intervalLoop]
    rw [if_pos (by rcases ht with rfl | rfl <;> omega)]
    apply ih
    · rcases ht with rfl | rfl <;> rcases hs with rfl | rfl
      · left; rfl
      · right
        have : (0 + 2 ^ 63) % U64 = 2 ^ 63 := by
          rw [Nat.zero_add]
          exact Nat.mod_eq_of_lt (by norm_num [U64])
        exact this
      · right
        have : (2 ^ 63 + 0) % U64 = 2 ^ 63 := by
          rw [Nat.add_zero]
          exact Nat.mod_eq_of_lt (by norm_num [U64])
        exact this
      · left
        have : (2 ^ 63 + 2 ^ 63) % U64 = 0 := by norm_num [U64]
        exact this
    · rcases hs with rfl | rfl
      · right
        have : (0 + 2 ^ 63) % U64 = 2 ^ 63 := by
          rw [Nat.zero_add]
          exact Nat.mod_eq_of_lt (by norm_num [U64])
        exact this
      · left
        have : (2 ^ 63 + 2 ^ 63) % U64 = 0 := by norm_num [U64]
        exact this

theorem toInt64_of_lt (n : Nat) (h : n < 2 ^ 63) : toInt64 n = (n : Int) := by
  have hU : n % U64 = n := Nat.mod_eq_of_lt (by simp only [U64]; omega)
  unfold toInt64
  rw [hU, if_pos h]

theorem outstanding_formula (p : Params) (funds u ppb : Int) (sent : Nat) (fin : Bool)
    (fuel m : Nat)
    (hu : p.UnsealPrice = some u) (hp : p.PricePerByte = some ppb)
    (hilb : p.IntervalLowerBound sent fuel = some m)
    (hbound : (if fin then sent else m) < 2 ^ 63) :
    p.OutstandingBalance (some funds) sent fin fuel =
      some (if funds < u then u - funds
            else if ppb = 0 then 0
            else max 0 (((if fin then sent else m : Nat) : Int) * ppb - (funds - u))) := by
  unfold Params.OutstandingBalance
  rw [hu, hp, hilb]
  by_cases hlt : funds < u
  · simp [bigLessThan, bigSub, hlt]
  · by_cases hz : ppb = 0
    · simp [bigLessThan, bigIsZero, bigSub, hlt, hz]
    · have hi64 : toInt64 (if fin then sent else m) = ((if fin then sent else m : Nat) : Int) :=
        toInt64_of_lt _ hbound
      simp only [bigLessThan, bigIsZero, bigSub, decide_eq_false hlt,
        beq_eq_false_iff_ne.2 hz, hi64]
      rw [if_neg hlt, if_neg hz]
      by_cases hneg : ((if fin then sent else m : Nat) : Int) * ppb - (funds - u) < 0
      · rw [if_pos hneg, max_eq_left (by omega)]
      · rw [if_neg hneg, max_eq_right (by omega)]

theorem outstanding_nonneg (p : Params) (fr : Option Int) (sent : Nat) (fin : Bool)
    (fuel : Nat) (v : Int) (h : p.OutstandingBalance fr sent fin fuel = some v) : 0 ≤ v := by
  unfold Params.OutstandingBalance at h
  rcases fr with _ | funds <;> rcases hup : p.UnsealPrice with _ | u <;> rw [hup] at h
  · -- both nil: LessThan is false, then IsZero on the price
    rcases hpp : p.PricePerByte with _ | q <;> rw [hpp] at h
    · exact absurd h (by simp [bigLessThan, bigIsZero])
    · by_cases hq : q = 0
      · simp [bigLessThan, bigIsZero, hq] at h
        omega
      · simp [bigLessThan, bigIsZero, beq_eq_false_iff_ne.2 hq, bigSub] at h
  · exact absurd h (by simp [bigLessThan])
  · exact absurd h (by simp [bigLessThan])
  · by_cases hlt : funds < u
    · simp [bigLessThan, hlt, bigSub] at h
      omega
    · rcases hpp : p.PricePerByte with _ | q <;> rw [hpp] at h
      · exact absurd h (by simp [bigLessThan, decide_eq_false hlt, bigIsZero])
      · by_cases hq : q = 0
        · simp [bigLessThan, decide_eq_false hlt, bigIsZero, hq] at h
          omega
        · rcases hilb : p.IntervalLowerBound sent fuel with _ | m <;>
            simp only [bigLessThan, bigIsZero, bigSub, decide_eq_false hlt,
              beq_eq_false_iff_ne.2 hq, hilb] at h
          · exact absurd h (by simp)
          · by_cases hneg : toInt64 (if fin then sent else m) * q - (funds - u) < 0
            · rw [if_pos hneg] at h
              injection h with h2
              omega
            · rw [if_neg hneg] at h
              injection h with h2
              omega

/-- Example Params from the spec: pricePerByte 10, paymentInterval 100,
paymentIntervalIncrease 50, unsealPrice 0. -/
def exampleParams : Params :=
  { PricePerByte := some 10, PaymentInterval := 100, PaymentIntervalIncrease := 50,
    UnsealPrice := some 0 }

/-- Params exhibiting the uint64→int64 wrap in OutstandingBalance. -/
def exWrapParams : Params :=
  { PricePerByte := some 1, PaymentInterval := 2 ^ 63 + 1, PaymentIntervalIncrease := 0,
    UnsealPrice := some 0 }

/-- C1 counterexample: with pricePerByte 1, paymentInterval 2^63+1, unsealPrice
0, fundsReceived 0, bytesSent 2^63 and inFinalization true, the claim's formula
max(0, minimumBytesToPay x pricePerByte - (fundsReceived - unsealPrice)) is
2^63, but the code pushes minimumBytesToPay through int64 (wrapping 2^63 to
-2^63) and returns 0. -/
theorem outstandingBalance_formula_cex :
    exWrapParams.OutstandingBalance (some 0) (2 ^ 63) true 2 = some 0 ∧
    max 0 (((2 ^ 63 : Nat) : Int) * 1 - ((0 : Int) - 0)) = ((2 ^ 63 : Nat) : Int) ∧
    ((2 ^ 63 : Nat) : Int) ≠ 0 := by
  refine ⟨by decide, by norm_num, by norm_num⟩

/-- C1 amended: whenever the interval loop returns (value m) and the resulting
minimumBytesToPay - bytesSent in finalization, m otherwise - is below 2^63 (so
the int64 conversion does not wrap), OutstandingBalance returns unsealPrice -
fundsReceived when fundsReceived < unsealPrice; 0 when the price per byte is
zero; and otherwise max(0, minimumBytesToPay x pricePerByte - (fundsReceived -
unsealPrice)).  The spec's concrete example holds: owed 400 (and 900 in
finalization). -/
theorem outstandingBalance_formula (p : Params) (funds u ppb : Int) (sent : Nat) (fin : Bool)
    (fuel m : Nat)
    (hu : p.UnsealPrice = some u) (hp : p.PricePerByte = some ppb)
    (hilb : p.IntervalLowerBound sent fuel = some m)
    (hbound : (if fin then sent else m) < 2 ^ 63) :
    p.OutstandingBalance (some funds) sent fin fuel =
      some (if funds < u then u - funds
            else if ppb = 0 then 0
            else max 0 (((if fin then sent else m : Nat) : Int) * ppb - (funds - u))) ∧
    exampleParams.IntervalLowerBound 150 4 = some 100 ∧
    exampleParams.OutstandingBalance (some 600) 150 false 4 = some 400 ∧
    exampleParams.OutstandingBalance (some 600) 150 true 4 = some 900 :=
  ⟨outstanding_formula p funds u ppb sent fin fuel m hu hp hilb hbound,
   by decide, by decide, by decide⟩

/-- Witness for the amended C1 at the spec's example inputs. -/
theorem outstandingBalance_formula_witness :
    exampleParams.OutstandingBalance (some 600) 150 false 4 =
      some (if (600 : Int) < 0 then 0 - 600
            else if (10 : Int) = 0 then 0
            else max 0 (((if false then 150 else 100 : Nat) : Int) * 10 - (600 - 0))) :=
  (outstandingBalance_formula exampleParams 600 0 10 150 false 4 100 rfl rfl (by decide)
    (by decide)).1

/-- Params exhibiting the uint64→int64 wrap for the zero-balance criterion. -/
def exWrapParams2 : Params :=
  { PricePerByte := some 1, PaymentInterval := 2 ^ 63 + 5, PaymentIntervalIncrease := 0,
    UnsealPrice := some 0 }

/-- C2 counterexample: at bytesSent 2^63 in finalization with fundsReceived 0,
pricePerByte 1 and unsealPrice 0, OutstandingBalance returns 0 although
fundsReceived < unsealPrice + bytesSent x pricePerByte, because the int64
conversion of bytesSent wraps to a negative required payment. -/
theorem outstandingBalance_zero_iff_cex :
    exWrapParams2.OutstandingBalance (some 0) (2 ^ 63) true 2 = some 0 ∧
    ¬((0 : Int) ≥ 0 + ((2 ^ 63 : Nat) : Int) * 1) := by
  refine ⟨by decide, by norm_num⟩

/-- C2 amended: OutstandingBalance is nonnegative whenever it returns, for all
inputs; and - for a returning interval loop with non-wrapping minimumBytesToPay
(below 2^63) and a nonnegative price per byte - it returns 0 exactly when
fundsReceived ≥ unsealPrice + minimumBytesToPay x pricePerByte, where
minimumBytesToPay is IntervalLowerBound(bytesSent) outside finalization and
bytesSent in finalization. -/
theorem outstandingBalance_nonneg_zero_iff :
    (∀ (p : Params) (fr : Option Int) (sent : Nat) (fin : Bool) (fuel : Nat) (v : Int),
      p.OutstandingBalance fr sent fin fuel = some v → 0 ≤ v) ∧
    (∀ (p : Params) (funds u ppb : Int) (sent : Nat) (fin : Bool) (fuel m : Nat),
      p.UnsealPrice = some u → p.PricePerByte = some ppb → 0 ≤ ppb →
      p.IntervalLowerBound sent fuel = some m → (if fin then sent else m) < 2 ^ 63 →
      (p.OutstandingBalance (some funds) sent fin fuel = some 0 ↔
        funds ≥ u + ((if fin then sent else m : Nat) : Int) * ppb)) := by
  refine ⟨outstanding_nonneg, ?_⟩
  intro p funds u ppb sent fin fuel m hu hp hppb hilb hbound
  rw [outstanding_formula p funds u ppb sent fin fuel m hu hp hilb hbound]
  have hmb : (0 : Int) ≤ ((if fin then sent else m : Nat) : Int) * ppb :=
    mul_nonneg (Int.natCast_nonneg _) hppb
  set A : Int := ((if fin then sent else m : Nat) : Int) * ppb with hA
  constructor
  · intro h
    by_cases hlt : funds < u
    · rw [if_pos hlt] at h
      injection h with h2
      omega
    · rw [if_neg hlt] at h
      by_cases hz : ppb = 0
      · have : A = 0 := by rw [hA, hz, mul_zero]
        omega
      · rw [if_neg hz] at h
        injection h with h2
        omega
  · intro h
    have hlt : ¬(funds < u) := by omega
    rw [if_neg hlt]
    by_cases hz : ppb = 0
    · rw [if_pos hz]
    · rw [if_neg hz]
      have : max 0 (A - (funds - u)) = 0 := by omega
      rw [this]

/-- Witness for the amended C2: a nonnegative result at the spec's example and
the zero-balance criterion at a concrete fully-paid input. -/
theorem outstandingBalance_nonneg_zero_iff_witness :
    (0 : Int) ≤ 400 ∧
    (exampleParams.OutstandingBalance (some 1000) 150 false 4 = some 0 ↔
      (1000 : Int) ≥ 0 + ((if false then 150 else 100 : Nat) : Int) * 10) :=
  ⟨outstandingBalance_nonneg_zero_iff.1 exampleParams (some 600) 150 false 4 400 (by decide),
   outstandingBalance_nonneg_zero_iff.2 exampleParams 1000 0 10 150 false 4 100 rfl rfl
     (by norm_num) (by decide) (by decide)⟩

/-- Params with payment-interval 2 and increase 2^64 - 1 (the uint64 -1). -/
def p5cex : Params := { PaymentInterval := 2, PaymentIntervalIncrease := 2 ^ 64 - 1 }

/-- C5 counterexample: with payment-interval 2 > 0 and increase 2^64-1, the
uint64 wrap makes IntervalLowerBound non-monotonic: its value at
currentInterval 2 is 2 but at 3 it is 0. -/
theorem interval_monotone_cex :
    0 < p5cex.PaymentInterval ∧
    p5cex.IntervalLowerBound 2 4 = some 2 ∧
    p5cex.IntervalLowerBound 3 8 = some 0 ∧
    ¬((2 : Nat) ≤ 0) := by
  refine ⟨by decide, by decide, by decide, by omega⟩

/-- C5 amended: when payment-interval > 0 and the interval computations
complete without uint64 overflow (the overflow-guarded loop returns, which
also fixes the fuel), IntervalLowerBound and nextInterval agree with the
unguarded uint64 code, both are monotonically non-decreasing in
currentInterval, and nextInterval(x) > x for every x. -/
theorem interval_monotone (p : Params) (x1 x2 f1 f2 v1 w1 v2 w2 : Nat)
    (hP : 0 < p.PaymentInterval) (hx : x1 ≤ x2)
    (h1 : intervalLoopChecked p.PaymentIntervalIncrease x1 f1 0 0 p.PaymentInterval =
      some (v1, w1))
    (h2 : intervalLoopChecked p.PaymentIntervalIncrease x2 f2 0 0 p.PaymentInterval =
      some (v2, w2)) :
    p.IntervalLowerBound x1 f1 = some v1 ∧ p.nextInterval x1 f1 = some w1 ∧
    p.IntervalLowerBound x2 f2 = some v2 ∧ p.nextInterval x2 f2 = some w2 ∧
    v1 ≤ v2 ∧ w1 ≤ w2 ∧ x1 < w1 ∧ x2 < w2 := by
  have l1 := checked_imp_loop _ _ _ _ _ _ _ h1
  have l2 := checked_imp_loop _ _ _ _ _ _ _ h2
  have s1 := checked_imp_spec _ _ _ _ _ _ _ h1
  have s2 := checked_imp_spec _ _ _ _ _ _ _ h2
  have s1m := spec_fuelMono _ _ f1 (max f1 f2) _ _ _ _ (le_max_left _ _) s1
  have s2m := spec_fuelMono _ _ f2 (max f1 f2) _ _ _ _ (le_max_right _ _) s2
  have mono := spec_mono p.PaymentIntervalIncrease x1 x2 hx (max f1 f2) 0 0 p.PaymentInterval
    v1 w1 v2 w2 (le_refl 0) s1m s2m
  refine ⟨?_, ?_, ?_, ?_, mono.1, mono.2,
    loop_gt _ _ _ _ _ _ _ _ l1, loop_gt _ _ _ _ _ _ _ _ l2⟩
  · simp [Params.IntervalLowerBound, l1]
  · simp [Params.nextInterval, l1]
  · simp [Params.IntervalLowerBound, l2]
  · simp [Params.nextInterval, l2]

/-- Witness for the amended C5 at the spec's example parameters. -/
theorem interval_monotone_witness :
    exampleParams.IntervalLowerBound 50 2 = some 0 ∧
    exampleParams.nextInterval 50 2 = some 100 ∧
    exampleParams.IntervalLowerBound 150 3 = some 100 ∧
    exampleParams.nextInterval 150 3 = some 250 ∧
    (0 : Nat) ≤ 100 ∧ (100 : Nat) ≤ 250 ∧ (50 : Nat) < 100 ∧ (150 : Nat) < 250 :=
  interval_monotone exampleParams 50 150 2 3 0 100 100 250 (by decide) (by omega)
    (by decide) (by decide)

/-- Params with PaymentInterval and PaymentIntervalIncrease both 2^63. -/
def pBadC9 : Params := { PaymentInterval := 2 ^ 63, PaymentIntervalIncrease := 2 ^ 63 }

/-- C9 counterexample: with PaymentInterval = PaymentIntervalIncrease = 2^63
(so PaymentInterval > 0) the uint64 loop state cycles at currentInterval =
2^63 and the loop never exits, refuting the claimed "terminates if
PaymentInterval > 0 or PaymentIntervalIncrease > 0". -/
theorem interval_termination_cex :
    0 < pBadC9.PaymentInterval ∧ loopDivergesAt pBadC9 (2 ^ 63) := by
  refine ⟨by decide, fun fuel => ?_⟩
  have hnone : intervalLoop (2 ^ 63) (2 ^ 63) fuel 0 0 (2 ^ 63) = none :=
    loop_diverges_cycle fuel 0 0 (2 ^ 63) (Or.inl rfl) (Or.inr rfl)
  constructor
  · show (intervalLoop pBadC9.PaymentIntervalIncrease (2 ^ 63) fuel 0 0
      pBadC9.PaymentInterval).map Prod.fst = none
    rw [show pBadC9.PaymentIntervalIncrease = 2 ^ 63 from rfl,
      show pBadC9.PaymentInterval = 2 ^ 63 from rfl, hnone]
    rfl
  · show (intervalLoop pBadC9.PaymentIntervalIncrease (2 ^ 63) fuel 0 0
      pBadC9.PaymentInterval).map Prod.snd = none
    rw [show pBadC9.PaymentIntervalIncrease = 2 ^ 63 from rfl,
      show pBadC9.PaymentInterval = 2 ^ 63 from rfl, hnone]
    rfl

/-- C9 amended: when both PaymentInterval and PaymentIntervalIncrease are zero
the shared loop of IntervalLowerBound and nextInterval never terminates, on
any input; when PaymentInterval > 0 or PaymentIntervalIncrease > 0 it
terminates within currentInterval + 3 iterations provided the run does not
overflow uint64, for which
cur + 2*(PaymentInterval + (cur+2)*PaymentIntervalIncrease) < 2^64 suffices;
without the overflow proviso the forward direction fails (see the
counterexample). -/
theorem interval_termination (p : Params) :
    ((p.PaymentInterval = 0 ∧ p.PaymentIntervalIncrease = 0) →
      ∀ cur fuel, p.IntervalLowerBound cur fuel = none ∧ p.nextInterval cur fuel = none) ∧
    (∀ cur, (0 < p.PaymentInterval ∨ 0 < p.PaymentIntervalIncrease) →
      cur + 2 * (p.PaymentInterval + (cur + 2) * p.PaymentIntervalIncrease) < U64 →
      ∃ v w, p.IntervalLowerBound cur (cur + 3) = some v ∧
        p.nextInterval cur (cur + 3) = some w) := by
  constructor
  · rintro ⟨hP, hI⟩ cur fuel
    have hnone : intervalLoop p.PaymentIntervalIncrease cur fuel 0 0 p.PaymentInterval = none := by
      rw [hP, hI]
      exact loop_diverges_zero cur fuel 0 0 (Nat.zero_le cur)
    constructor <;> simp [Params.IntervalLowerBound, Params.nextInterval, hnone]
  · intro cur hpos hW
    have hW64 : cur + 2 * (p.PaymentInterval + (cur + 2) * p.PaymentIntervalIncrease) <
        18446744073709551616 := by
      have hU : U64 = 18446744073709551616 := rfl
      rw [hU] at hW
      exact hW
    have hterm : ∃ x, intervalLoopChecked p.PaymentIntervalIncrease cur (cur + 3) 0 0
        p.PaymentInterval = some x := by
      rcases Nat.eq_zero_or_pos p.PaymentInterval with hP0 | hPpos
      · have hIpos : 0 < p.PaymentIntervalIncrease := by
          rcases hpos with hcase | hcase
          · omega
          · exact hcase
        rw [hP0] at hW64
        have hB : (cur + 2) * p.PaymentIntervalIncrease =
            (cur + 1) * p.PaymentIntervalIncrease + p.PaymentIntervalIncrease := by ring
        have hmul : p.PaymentIntervalIncrease ≤ (cur + 2) * p.PaymentIntervalIncrease :=
          Nat.le_mul_of_pos_left _ (by omega)
        obtain ⟨x, hx⟩ := checked_terminates p.PaymentIntervalIncrease cur (cur + 1) 0 0
          p.PaymentIntervalIncrease hIpos (by omega)
          (by show _ < U64; have hU : U64 = 18446744073709551616 := rfl; rw [hU]; omega)
        have hx2 : intervalLoopChecked p.PaymentIntervalIncrease cur (cur + 2) 0 0
            p.PaymentIntervalIncrease = some x := by
          rw [show cur + 2 = (cur + 1) + 1 from by omega]
          exact hx
        refine ⟨x, ?_⟩
        have h03 : cur + 3 = (cur + 2) + 1 := by omega
        have hg1 : (0 : Nat) + 0 < U64 := by
          have hU : U64 = 18446744073709551616 := rfl
          rw [hU]; omega
        have hg2 : (0 : Nat) + p.PaymentIntervalIncrease < U64 := by
          have hU : U64 = 18446744073709551616 := rfl
          rw [hU]; omega
        rw [hP0, h03, checked_step p.PaymentIntervalIncrease cur (cur + 2) 0 0 0
          (Nat.zero_le cur) ⟨hg1, hg2⟩]
        simpa only [Nat.zero_add] using hx2
      · obtain ⟨x, hx⟩ := checked_terminates p.PaymentIntervalIncrease cur (cur + 2) 0 0
          p.PaymentInterval hPpos (by omega)
          (by show _ < U64; have hU : U64 = 18446744073709551616 := rfl; rw [hU]; omega)
        refine ⟨x, ?_⟩
        rw [show cur + 3 = (cur + 2) + 1 from by omega]
        exact hx
    obtain ⟨⟨v, w⟩, hx⟩ := hterm
    have hl := checked_imp_loop _ _ _ _ _ _ _ hx
    exact ⟨v, w, by simp [Params.IntervalLowerBound, hl], by simp [Params.nextInterval, hl]⟩

/-- Params with both interval fields zero. -/
def pZeroParams : Params := {}

/-- Params with payment-interval 1 and no increase. -/
def pOneParams : Params := { PaymentInterval := 1 }

/-- Witness for the amended C9: divergence at zero intervals and termination
at payment-interval 1. -/
theorem interval_termination_witness :
    (pZeroParams.IntervalLowerBound 5 7 = none ∧ pZeroParams.nextInterval 5 7 = none) ∧
    (∃ v w, pOneParams.IntervalLowerBound 5 (5 + 3) = some v ∧
      pOneParams.nextInterval 5 (5 + 3) = some w) :=
  ⟨(interval_termination pZeroParams).1 ⟨rfl, rfl⟩ 5 7,
   (interval_termination pOneParams).2 5 (Or.inl (by decide)) (by decide)⟩

end FilMarkets
